import Mathlib

/-!
Shallow embedding of `src/neuralnets/layers.py` (a minimal Python 2 neural-network
layer library built on numpy and scipy.signal), together with theorems settling
the specification claims about it.

Tensors are modelled as structures carrying an explicit shape and a total
valuation function into ℚ; entries outside the declared shape are read through
`getv`, which yields 0, matching scipy's zero-padding.  Randomness is injected:
layer constructors receive the already-drawn weight tensors as parameters, and
the initialisation *scaling* (the only thing the code specifies about the
weights' distribution) is modelled separately over ℝ.
-/

namespace NeuralNet

/-- A 2-D numpy array: explicit shape plus a total valuation.  Entries at
indices outside `rows × cols` are meaningless; all array operations read
entries through `Mat.getv`, which zero-extends. -/
structure Mat where
  rows : ℕ
  cols : ℕ
  val : ℕ → ℕ → ℚ

/-- Bounds-checked read: zero outside the declared shape (this is exactly the
zero-padding scipy's boundary handling uses, `boundary='fill', fillvalue=0`). -/
def Mat.getv (A : Mat) (i j : ℕ) : ℚ :=
  if i < A.rows ∧ j < A.cols then A.val i j else 0

/-- `A.shape` as a Python tuple of ints. -/
def Mat.shape (A : Mat) : List ℕ := [A.rows, A.cols]

/-- Spatial flip of a kernel (`B[::-1, ::-1]`). -/
def flipM (B : Mat) : Mat :=
  ⟨B.rows, B.cols, fun i j => B.getv (B.rows - 1 - i) (B.cols - 1 - j)⟩

/-- Entry `(i, j)` of the FULL 2-D convolution of `A` with kernel `B`:
`out[i][j] = Σ_{u,v} B[u,v] · A[i-u, j-v]`, with zero padding outside `A`.
The full output has shape `(A.rows + B.rows - 1, A.cols + B.cols - 1)`. -/
def fullConvVal (A B : Mat) (i j : ℕ) : ℚ :=
  ∑ u ∈ Finset.range B.rows, ∑ v ∈ Finset.range B.cols,
    if u ≤ i ∧ v ≤ j then B.getv u v * A.getv (i - u) (j - v) else 0

/-- scipy's two boundary modes used by this code. -/
inductive Mode where
  | same
  | valid
deriving DecidableEq

/-- `scipy.signal.convolve2d(A, B, mode)`.
`same` returns an `A`-shaped output, centred with respect to the full output
(crop offset `(B.rows - 1) / 2`); `valid` returns the
`(A.rows - B.rows + 1) × (A.cols - B.cols + 1)` part needing no padding. -/
def convolve2d (A B : Mat) : Mode → Mat
  | .same =>
      ⟨A.rows, A.cols, fun i j =>
        fullConvVal A B (i + (B.rows - 1) / 2) (j + (B.cols - 1) / 2)⟩
  | .valid =>
      ⟨A.rows - B.rows + 1, A.cols - B.cols + 1, fun i j =>
        fullConvVal A B (i + (B.rows - 1)) (j + (B.cols - 1))⟩

/-- `scipy.signal.correlate2d(A, B, mode)`: convolution with the spatially
flipped kernel. -/
def correlate2d (A B : Mat) (m : Mode) : Mat := convolve2d A (flipM B) m

/-- `np.dot` of two 2-D arrays. -/
def matMul (A B : Mat) : Mat :=
  ⟨A.rows, B.cols, fun i j => ∑ k ∈ Finset.range A.cols, A.getv i k * B.getv k j⟩

/-- `A.T`. -/
def Mat.transpose (A : Mat) : Mat := ⟨A.cols, A.rows, fun i j => A.val j i⟩

/-- A 4-D numpy array (batch × channels × height × width, or a weight bank). -/
structure Arr4 where
  d0 : ℕ
  d1 : ℕ
  d2 : ℕ
  d3 : ℕ
  val : ℕ → ℕ → ℕ → ℕ → ℚ

def Arr4.shape (A : Arr4) : List ℕ := [A.d0, A.d1, A.d2, A.d3]

/-- The 2-D slice `A[n][c]`. -/
def Arr4.slice (A : Arr4) (n c : ℕ) : Mat := ⟨A.d2, A.d3, fun i j => A.val n c i j⟩

/-- A 3-D numpy array (one sample's channels × height × width). -/
structure Arr3 where
  d0 : ℕ
  d1 : ℕ
  d2 : ℕ
  val : ℕ → ℕ → ℕ → ℚ

/-- Reading entry `(i, j)` of `B` when numpy broadcasts `B` against a larger
2-D target in `+=`: an axis of extent 1 is repeated. -/
def bcastVal (B : Mat) (i j : ℕ) : ℚ :=
  B.val (if B.rows = 1 then 0 else i) (if B.cols = 1 then 0 else j)

/-- Literal matrix builder, for concrete test inputs. -/
def mkMat (l : List (List ℚ)) : Mat :=
  ⟨l.length, (l.headD []).length, fun i j => (l.getD i []).getD j 0⟩

/-- Literal 4-D array builder, for concrete test inputs. -/
def mkArr4 (l : List (List (List (List ℚ)))) : Arr4 :=
  ⟨l.length, (l.headD []).length, ((l.headD []).headD []).length,
   (((l.headD []).headD []).headD []).length,
   fun n c i j => (((l.getD n []).getD c []).getD i []).getD j 0⟩

/-- Errors a call can surface.  The first three are the spec's taxonomy
(`ShapeMismatch` and `PreconditionError` are the two `assert`s in
`Layer.forward` / `Layer.backward`; `ConfigError` appears nowhere in the
code); the last two are the exceptions Python itself raises on the paths
the code actually takes. -/
inductive Err where
  | shapeMismatch
  | preconditionError
  | configError
  | attributeError
  | typeError
deriving DecidableEq

/-- Guard of `Layer.backward`: the Python test `self.acts != []`.
The cache `self.acts` is initialised to `None`, and in Python 2
`None != []` evaluates to `True`; after a forward pass stored a numpy
array, `arr != []` is also truthy.  So the guard passes in every state
and the assertion it protects can never fire. -/
def actsNeqEmpty {α : Type} : Option α → Bool
  | none => true
  | some _ => true

/-! ## ConvLayer -/

/-- State of a `ConvLayer`: shapes and hyperparameters fixed at
construction, the weight bank, and the three caches (`acts` from
`Layer.__init__`, `inputs` set by `_forward`, `gradient` set by
`_backward`).  A `none` models a Python attribute that is `None` or, for
`inputs`, not yet set at all. -/
structure ConvLayer where
  input_shape : List ℕ
  n_filters : ℕ
  field : ℕ
  weights : Arr4
  acts : Option Arr4 := none
  inputs : Option Arr4 := none
  gradient : Option Arr4 := none

/-- Constructor `ConvLayer.__init__(input_shape, n_filters, field)`.  The
weight bank is allocated by `np.random.randn(n_filters, input_shape[1],
field, field)`; its entry values (already multiplied by the scaling, whose
square `convInitScaleSq` models) are injected through `raw` so that the
embedding stays free of a random source.  The body performs no validation of
any kind — in particular it never compares `field` with the spatial extent —
so construction cannot fail; the `Except` records that no error is raised. -/
def convInit (input_shape : List ℕ) (n_filters field : ℕ)
    (raw : ℕ → ℕ → ℕ → ℕ → ℚ) : Except Err ConvLayer :=
  .ok { input_shape := input_shape, n_filters := n_filters, field := field,
        weights := ⟨n_filters, input_shape.getD 1 0, field, field, raw⟩ }

/-- Attribute `self.output_shape = (1, n_filters, input_shape[2], input_shape[3])`. -/
def ConvLayer.output_shape (st : ConvLayer) : List ℕ :=
  [1, st.n_filters, st.input_shape.getD 2 0, st.input_shape.getD 3 0]

/-- Output buffer of `ConvLayer._forward`: zero-initialised
`(batch,) + output_shape[1:]`, accumulating over the channel loop
`outputs[n][k] += scipy.signal.convolve2d(inputs[n][c], weights[k][c], mode='same')`. -/
def convOutputs (st : ConvLayer) (x : Arr4) : Arr4 :=
  ⟨x.d0, st.n_filters, st.input_shape.getD 2 0, st.input_shape.getD 3 0,
    fun n k i j =>
      ∑ c ∈ Finset.range x.d1,
        (convolve2d (x.slice n c) (st.weights.slice k c) .same).val i j⟩

/-- Method `Layer.forward` specialised to `ConvLayer`: the shape assertion
`inputs.shape[1:] == self.input_shape[1:]`, then `_forward`, which caches the
raw inputs unconditionally and the outputs when `keepacts`.  Returns the
result (or the raised error) together with the post-call state. -/
def convForward (st : ConvLayer) (x : Arr4) (keepacts : Bool) :
    Except Err Arr4 × ConvLayer :=
  if x.shape.tail = st.input_shape.tail then
    let out := convOutputs st x
    (.ok out,
     { st with inputs := some x, acts := if keepacts then some out else st.acts })
  else (.error .shapeMismatch, st)

/-- Weight-gradient buffer of `ConvLayer._backward`: zero-initialised
`np.zeros(weights.shape)`; the loops over kernel `k < n_filters`, channel
`c < inputs.shape[1]` and image `n < inputs.shape[0]` accumulate
`self.gradient[k][c] += scipy.signal.convolve2d(inputs[n][c], gradient[n][k], 'valid')`.
That right-hand side has shape `(ins.d2 - g.d2 + 1, ins.d3 - g.d3 + 1)` —
`(1, 1)` in the reachable case where the output gradient has the input's
spatial extent — and numpy broadcasts it over the `field × field` target
slice (`bcastVal`).  Entries outside the loop ranges keep their zeros. -/
def convWGrad (st : ConvLayer) (ins g : Arr4) : Arr4 :=
  ⟨st.weights.d0, st.weights.d1, st.weights.d2, st.weights.d3,
    fun k c i j =>
      if k < st.n_filters ∧ c < ins.d1 then
        ∑ n ∈ Finset.range ins.d0,
          bcastVal (convolve2d (ins.slice n c) (g.slice n k) .valid) i j
      else 0⟩

/-- Propagated input gradient of `ConvLayer._backward`: zero-initialised
`np.zeros(inputs.shape)`, accumulating over the kernel loop
`grad[n][c] += scipy.signal.correlate2d(gradient[n][k], weights[k][c], 'same')`. -/
def convInGrad (st : ConvLayer) (ins g : Arr4) : Arr4 :=
  ⟨ins.d0, ins.d1, ins.d2, ins.d3,
    fun n c i j =>
      if n < ins.d0 ∧ c < ins.d1 then
        ∑ k ∈ Finset.range st.n_filters,
          (correlate2d (g.slice n k) (st.weights.slice k c) .same).val i j
      else 0⟩

/-- Method `Layer.backward` specialised to `ConvLayer`: the (vacuous) acts
guard, then `_backward`, which reads `self.inputs` — an `AttributeError` when
no forward ever ran — stores the weight gradient unconditionally (this
variant ignores `keepgrad`) and returns the propagated input gradient. -/
def convBackward (st : ConvLayer) (g : Arr4) (keepgrad : Bool) :
    Except Err Arr4 × ConvLayer :=
  if actsNeqEmpty st.acts then
    match st.inputs with
    | none => (.error .attributeError, st)
    | some ins =>
        (.ok (convInGrad st ins g), { st with gradient := some (convWGrad st ins g) })
  else (.error .preconditionError, st)

/-- Method `ConvLayer.update_parameters`: `weights *= (1 - regu_strength)`
then `weights -= gradient * learn_rate / len(gradient)`.  Python's `len` of a
numpy array is its leading-axis extent, here `gradient.d0`.  Arithmetic on
the initial `None` gradient would be a Python `TypeError`. -/
def convUpdate (st : ConvLayer) (learn_rate regu_strength : ℚ) :
    Except Err ConvLayer :=
  match st.gradient with
  | none => .error .typeError
  | some g =>
      .ok { st with weights :=
        ⟨st.weights.d0, st.weights.d1, st.weights.d2, st.weights.d3,
          fun k c i j => st.weights.val k c i j * (1 - regu_strength)
            - g.val k c i j * learn_rate / (g.d0 : ℚ)⟩ }

/-! ## ReLuLayer -/

structure ReLuLayer where
  input_shape : List ℕ
  acts : Option Arr4 := none
  gradient : Option Arr4 := none

def reluInit (input_shape : List ℕ) : ReLuLayer := { input_shape := input_shape }

/-- Attribute `self.output_shape` of a `ReLuLayer`: inherited unchanged from
`Layer.__init__` (`output_shape = input_shape`). -/
def ReLuLayer.output_shape (st : ReLuLayer) : List ℕ := st.input_shape

/-- Elementwise `np.maximum(0, inputs)`. -/
def reluActs (x : Arr4) : Arr4 :=
  ⟨x.d0, x.d1, x.d2, x.d3, fun n c i j => max 0 (x.val n c i j)⟩

def reluForward (st : ReLuLayer) (x : Arr4) (keepacts : Bool) :
    Except Err Arr4 × ReLuLayer :=
  if x.shape.tail = st.input_shape.tail then
    let a := reluActs x
    (.ok a, { st with acts := if keepacts then some a else st.acts })
  else (.error .shapeMismatch, st)

/-- Mask `(self.acts > 0)` of `ReLuLayer._backward`, as a 0/1 factor.  When
`acts` is still `None` (no forward with `keepacts` ever ran), Python 2
evaluates `None > 0` to `False`, so the whole mask is the scalar 0 and the
multiplication silently zeroes the gradient. -/
def reluMaskVal : Option Arr4 → ℕ → ℕ → ℕ → ℕ → ℚ
  | none, _, _, _, _ => 0
  | some a, n, c, i, j => if 0 < a.val n c i j then 1 else 0

def reluBackward (st : ReLuLayer) (g : Arr4) (keepgrad : Bool) :
    Except Err Arr4 × ReLuLayer :=
  if actsNeqEmpty st.acts then
    let gr : Arr4 :=
      ⟨g.d0, g.d1, g.d2, g.d3, fun n c i j => g.val n c i j * reluMaskVal st.acts n c i j⟩
    (.ok gr, if keepgrad then { st with gradient := some gr } else st)
  else (.error .preconditionError, st)

/-! ## BiasLayer -/

structure BiasLayer where
  input_shape : List ℕ
  biases : Arr3
  acts : Option Arr4 := none
  gradient : Option Arr4 := none

/-- Constructor `BiasLayer.__init__`: `biases = np.zeros(input_shape[1:])`
(one sample's shape; three axes in the convolutional pipeline). -/
def biasInit (input_shape : List ℕ) : BiasLayer :=
  { input_shape := input_shape,
    biases := ⟨input_shape.getD 1 0, input_shape.getD 2 0, input_shape.getD 3 0,
               fun _ _ _ => 0⟩ }

/-- Attribute `self.output_shape` of a `BiasLayer`: inherited unchanged from
`Layer.__init__` (`output_shape = input_shape`). -/
def BiasLayer.output_shape (st : BiasLayer) : List ℕ := st.input_shape

def biasForward (st : BiasLayer) (x : Arr4) (keepacts : Bool) :
    Except Err Arr4 × BiasLayer :=
  if x.shape.tail = st.input_shape.tail then
    let a : Arr4 := ⟨x.d0, x.d1, x.d2, x.d3,
      fun n c i j => x.val n c i j + st.biases.val c i j⟩
    (.ok a, { st with acts := if keepacts then some a else st.acts })
  else (.error .shapeMismatch, st)

def biasBackward (st : BiasLayer) (g : Arr4) (keepgrad : Bool) :
    Except Err Arr4 × BiasLayer :=
  if actsNeqEmpty st.acts then
    (.ok g, if keepgrad then { st with gradient := some g } else st)
  else (.error .preconditionError, st)

/-- Method `BiasLayer.update_parameters`:
`biases -= learn_rate * np.mean(self.gradient, axis=0)`. -/
def biasUpdate (st : BiasLayer) (learn_rate : ℚ) : Except Err BiasLayer :=
  match st.gradient with
  | none => .error .typeError
  | some g =>
      .ok { st with biases :=
        ⟨st.biases.d0, st.biases.d1, st.biases.d2,
          fun c i j => st.biases.val c i j
            - learn_rate * ((∑ n ∈ Finset.range g.d0, g.val n c i j) / (g.d0 : ℚ))⟩ }

/-! ## FCLayer -/

/-- Entry of a Python tuple.  Numpy shapes are flat tuples of ints, but
`FCLayer.__init__` builds its `output_shape` as the nested pair
`(input_shape, n_neurons)` whose first entry is itself a tuple. -/
inductive PyShape where
  | nat (n : ℕ)
  | tup (l : List ℕ)
deriving DecidableEq

structure FCLayer where
  input_shape : List ℕ
  n_neurons : ℕ
  weights : Mat
  acts : Option Mat := none
  inputs : Option Mat := none
  gradient : Option Mat := none

/-- Constructor `FCLayer.__init__(input_shape, n_neurons)`: the weight matrix
is allocated by `np.random.randn(n_input, n_neurons)` with
`n_input = np.prod(input_shape[1:])`; the drawn, scaled entry values are
injected through `raw` (scaling square modelled by `fcInitScaleSq`). -/
def fcInit (input_shape : List ℕ) (n_neurons : ℕ) (raw : ℕ → ℕ → ℚ) :
    Except Err FCLayer :=
  .ok { input_shape := input_shape, n_neurons := n_neurons,
        weights := ⟨input_shape.tail.prod, n_neurons, raw⟩ }

/-- Attribute `self.output_shape = (input_shape, n_neurons)` — a pair whose
FIRST entry is the whole `input_shape` tuple, not a batch placeholder. -/
def FCLayer.output_shape (st : FCLayer) : List PyShape :=
  [PyShape.tup st.input_shape, PyShape.nat st.n_neurons]

/-- Reshape `inputs.reshape(inputs.shape[0], np.prod(self.input_shape[1:]))`,
row-major (numpy C order); under the forward guard the declared per-sample
shape equals the actual one, so the flat extent is `d1 * d2 * d3`. -/
def flatten4 (x : Arr4) : Mat :=
  ⟨x.d0, x.d1 * x.d2 * x.d3,
   fun n t => x.val n (t / (x.d2 * x.d3)) (t / x.d3 % x.d2) (t % x.d3)⟩

def fcForward (st : FCLayer) (x : Arr4) (keepacts : Bool) :
    Except Err Mat × FCLayer :=
  if x.shape.tail = st.input_shape.tail then
    let flat := flatten4 x
    let a := matMul flat st.weights
    (.ok a, { st with inputs := some flat, acts := if keepacts then some a else st.acts })
  else (.error .shapeMismatch, st)

/-- Reshape of a `(batch × flat)` matrix back to
`(batch,) + input_shape[1:]`, row-major. -/
def unflattenTo4 (m : Mat) (s1 s2 s3 : ℕ) : Arr4 :=
  ⟨m.rows, s1, s2, s3, fun n c i j => m.val n (c * (s2 * s3) + i * s3 + j)⟩

/-- Method `Layer.backward` specialised to `FCLayer`: the (vacuous) acts
guard, then `_backward`: weight gradient `np.dot(self.inputs.T, gradient)`
(stored only when `keepgrad`, unlike `ConvLayer`), returned input gradient
`np.dot(gradient, self.weights.T)` reshaped to the per-sample input shape. -/
def fcBackward (st : FCLayer) (g : Mat) (keepgrad : Bool) :
    Except Err Arr4 × FCLayer :=
  if actsNeqEmpty st.acts then
    match st.inputs with
    | none => (.error .attributeError, st)
    | some ins =>
        let wgrad := matMul ins.transpose g
        let outg := unflattenTo4 (matMul g st.weights.transpose)
          (st.input_shape.getD 1 0) (st.input_shape.getD 2 0) (st.input_shape.getD 3 0)
        (.ok outg, if keepgrad then { st with gradient := some wgrad } else st)
  else (.error .preconditionError, st)

/-- Method `FCLayer.update_parameters`: same shape of rule as `ConvLayer`;
`len(self.gradient)` is the weight-gradient matrix's row count. -/
def fcUpdate (st : FCLayer) (learn_rate regu_strength : ℚ) : Except Err FCLayer :=
  match st.gradient with
  | none => .error .typeError
  | some g =>
      .ok { st with weights :=
        ⟨st.weights.rows, st.weights.cols,
          fun i j => st.weights.val i j * (1 - regu_strength)
            - g.val i j * learn_rate / (g.rows : ℚ)⟩ }

/-! ## Weight initialisation scaling

Each constructor multiplies independent standard-normal draws by a factor of
the form `sqrt(2 / divisor)`.  The square root is irrational, so to keep the
embedding executable the factor is represented by the divisor it uses and by
the factor's SQUARE (a rational): `x ↦ sqrt x` is injective on nonnegatives,
so two scales agree exactly when their squares do. -/

/-- Divisor in `ConvLayer.__init__`'s scaling
`np.sqrt(2.0 / np.sum(self.weights[i].shape))`: `self.weights[i].shape` is
the tuple `(input_channels, field, field)` and `np.sum` of a tuple adds its
entries, giving the SUM `input_channels + field + field`. -/
def convScaleDivisor (input_channels field : ℕ) : ℕ :=
  input_channels + field + field

/-- Square of the factor each conv weight is multiplied by. -/
def convInitScaleSq (input_channels field : ℕ) : ℚ :=
  2 / (convScaleDivisor input_channels field : ℚ)

/-- Fan-in the spec claims for a conv filter (He initialisation): the PRODUCT
`input_channels · field · field` of the filter's input dimensions. -/
def heFanInConv (input_channels field : ℕ) : ℕ :=
  input_channels * field * field

/-- Square of the He scale `sqrt(2 / fan_in)` the spec claims. -/
def heScaleSq (fan_in : ℕ) : ℚ := 2 / (fan_in : ℚ)

/-- Divisor in `FCLayer.__init__`'s scaling `np.sqrt(2.0 / n_input)`:
`n_input = np.prod(input_shape[1:])`, the product of the non-batch axes. -/
def fcScaleDivisor (input_shape : List ℕ) : ℕ := input_shape.tail.prod

/-- Square of the factor each FC weight is multiplied by. -/
def fcInitScaleSq (input_shape : List ℕ) : ℚ :=
  2 / (fcScaleDivisor input_shape : ℚ)

/-! ## Result extractors (shared helpers for stating concrete facts) -/

/-- Entry of a forward/backward result; 0 as a sentinel on the error arm. -/
def resVal4 (r : Except Err Arr4) (n c i j : ℕ) : ℚ :=
  match r with
  | .ok a => a.val n c i j
  | .error _ => 0

/-- Shape of a forward/backward result; `[]` as a sentinel on the error arm. -/
def resShape4 (r : Except Err Arr4) : List ℕ :=
  match r with
  | .ok a => a.shape
  | .error _ => []

/-- Entry of an updated conv weight bank; 0 as a sentinel on the error arm. -/
def updWeightsVal (r : Except Err ConvLayer) (k c i j : ℕ) : ℚ :=
  match r with
  | .ok st => st.weights.val k c i j
  | .error _ => 0

/-- Entry of a cached gradient; 0 as a sentinel when unset. -/
def gradVal (o : Option Arr4) (k c i j : ℕ) : ℚ :=
  match o with
  | some a => a.val k c i j
  | none => 0

/-! ## Definitions written from the SPEC's words, for refinement comparison

These two do NOT embed the code; they formalise what the spec claims the
conv layer computes, so that the claims can be compared against the code's
`convOutputs` / `convWGrad`. -/

/-- Spec's sentence for the forward pass (claim C1): per-channel accumulation
of the "same"-mode 2-D CORRELATION of `inputs[n][c]` with `weights[k][c]`. -/
def convOutputsSpecCorr (st : ConvLayer) (x : Arr4) : Arr4 :=
  ⟨x.d0, st.n_filters, st.input_shape.getD 2 0, st.input_shape.getD 3 0,
    fun n k i j =>
      ∑ c ∈ Finset.range x.d1,
        (correlate2d (x.slice n c) (st.weights.slice k c) .same).val i j⟩

/-- Spec's sentence for the weight gradient (claim C2): for each filter and
channel, the sum over samples of the "valid"-mode 2-D CORRELATION of the
cached `inputs[n][c]` with `gradient[n][k]`. -/
def convWGradSpecCorr (st : ConvLayer) (ins g : Arr4) : Arr4 :=
  ⟨st.weights.d0, st.weights.d1, st.weights.d2, st.weights.d3,
    fun k c i j =>
      ∑ n ∈ Finset.range ins.d0,
        (correlate2d (ins.slice n c) (g.slice n k) .valid).val i j⟩

/-! ## Concrete instances used by the per-claim witness and counterexample
theorems -/

/-- Conv layer on 3×3 single-channel images with one asymmetric 3×3 filter. -/
def c1Layer : ConvLayer :=
  { input_shape := [1, 1, 3, 3], n_filters := 1, field := 3,
    weights := mkArr4 [[[[1, 2, 3], [4, 5, 6], [7, 8, 9]]]] }

/-- Single-sample batch: a delta image at position (0, 0). -/
def c1Input : Arr4 := mkArr4 [[[[1, 0, 0], [0, 0, 0], [0, 0, 0]]]]

/-- Conv layer on 2×2 single-channel images with a 2×2 filter. -/
def c2Layer : ConvLayer :=
  { input_shape := [1, 1, 2, 2], n_filters := 1, field := 2,
    weights := mkArr4 [[[[1, 2], [3, 4]]]] }

def c2Input : Arr4 := mkArr4 [[[[1, 0], [0, 0]]]]

def c2G : Arr4 := mkArr4 [[[[0, 0], [0, 1]]]]

/-- State of `c2Layer` right after the forward pass cached the inputs. -/
def c2St1 : ConvLayer := (convForward c2Layer c2Input false).2

/-- State of `c2Layer` after one forward (inputs cached) and one backward
(weight gradient stored). -/
def c2After : ConvLayer :=
  (convBackward ((convForward c2Layer c2Input false).2) c2G true).2

/-- Conv layer on 1×1 single-channel images with a single 1×1 filter of
weight 0. -/
def c3Layer : ConvLayer :=
  { input_shape := [1, 1, 1, 1], n_filters := 1, field := 1,
    weights := mkArr4 [[[[0]]]] }

/-- A batch of TWO samples (leading axis 2). -/
def c3Input : Arr4 := mkArr4 [[[[1]]], [[[1]]]]

def c3G : Arr4 := mkArr4 [[[[1]]], [[[1]]]]

/-- State of `c3Layer` after forward on the two-sample batch and backward. -/
def c3After : ConvLayer :=
  (convBackward ((convForward c3Layer c3Input false).2) c3G true).2

/-- Conv state with a stored 1×1×1×1 weight gradient of value 2. -/
def c3ConvSt : ConvLayer :=
  { input_shape := [1, 1, 1, 1], n_filters := 1, field := 1,
    weights := mkArr4 [[[[0]]]], gradient := some (mkArr4 [[[[2]]]]) }

/-- Conv state with a cached two-sample input batch. -/
def c3ConvStIns : ConvLayer :=
  { input_shape := [1, 1, 1, 1], n_filters := 1, field := 1,
    weights := mkArr4 [[[[0]]]], inputs := some c3Input }

/-- FC state with a stored 2×1 weight gradient and a cached 1×2 input. -/
def c3FcSt : FCLayer :=
  { input_shape := [1, 1, 1, 2], n_neurons := 1, weights := mkMat [[1], [1]],
    gradient := some (mkMat [[2], [4]]), inputs := some (mkMat [[1, 2]]) }

/-- Freshly constructed ReLU layer: `acts` is still `None`. -/
def c5Relu : ReLuLayer := reluInit [1, 1, 1, 1]

def c5G : Arr4 := mkArr4 [[[[5]]]]

/-- Freshly constructed conv layer: no forward has cached `self.inputs`. -/
def c5Conv : ConvLayer :=
  { input_shape := [1, 1, 1, 1], n_filters := 1, field := 1,
    weights := mkArr4 [[[[1]]]] }

/-- Conv layer declared for 2×2 inputs, with a 1×1 filter. -/
def c7Layer : ConvLayer :=
  { input_shape := [1, 1, 2, 2], n_filters := 1, field := 1,
    weights := mkArr4 [[[[1]]]] }

/-- A batch whose per-sample shape (1, 3, 3) mismatches `c7Layer`'s (1, 2, 2). -/
def c7Bad : Arr4 := mkArr4 [[[[1, 2, 3], [4, 5, 6], [7, 8, 9]]]]

def c7Relu : ReLuLayer := reluInit [1, 1, 2, 2]

def c7Bias : BiasLayer := biasInit [1, 1, 2, 2]

def c7Fc : FCLayer :=
  { input_shape := [1, 1, 2, 2], n_neurons := 2, weights := mkMat [[1, 1], [1, 1], [1, 1], [1, 1]] }

/-- A batch of one 1×2×2 sample, matching the `c7`/`c8` layers' input shape. -/
def c8Good : Arr4 := mkArr4 [[[[1, 2], [3, 4]]]]

/-- Input containing a negative, a zero and positive entries. -/
def c9Input : Arr4 := mkArr4 [[[[-1, 0], [2, 3]]]]

def c9G : Arr4 := mkArr4 [[[[10, 10], [10, 10]]]]

def c9Relu : ReLuLayer := reluInit [1, 1, 2, 2]

/-! ## Helper lemmas -/

theorem actsNeqEmpty_eq_true {α : Type} (o : Option α) : actsNeqEmpty o = true := by
  cases o <;> rfl

theorem flipM_flipM_getv (B : Mat) (i j : ℕ) :
    (flipM (flipM B)).getv i j = B.getv i j := by
  show (if i < B.rows ∧ j < B.cols then (flipM B).getv (B.rows - 1 - i) (B.cols - 1 - j) else 0)
    = B.getv i j
  by_cases hij : i < B.rows ∧ j < B.cols
  · obtain ⟨hi, hj⟩ := hij
    rw [if_pos ⟨hi, hj⟩]
    show (if B.rows - 1 - i < B.rows ∧ B.cols - 1 - j < B.cols
      then B.getv (B.rows - 1 - (B.rows - 1 - i)) (B.cols - 1 - (B.cols - 1 - j)) else 0)
      = B.getv i j
    rw [if_pos ⟨by omega, by omega⟩]
    congr 1 <;> omega
  · rw [if_neg hij, Mat.getv, if_neg hij]

theorem fullConvVal_flipflip (A B : Mat) (i j : ℕ) :
    fullConvVal A (flipM (flipM B)) i j = fullConvVal A B i j := by
  show (∑ u ∈ Finset.range B.rows, ∑ v ∈ Finset.range B.cols,
      if u ≤ i ∧ v ≤ j then (flipM (flipM B)).getv u v * A.getv (i - u) (j - v) else 0)
    = fullConvVal A B i j
  unfold fullConvVal
  refine Finset.sum_congr rfl fun u _ => Finset.sum_congr rfl fun v _ => ?_
  rw [flipM_flipM_getv]

theorem correlate2d_flipM_val (A B : Mat) (m : Mode) (i j : ℕ) :
    (correlate2d A (flipM B) m).val i j = (convolve2d A B m).val i j := by
  cases m
  · show fullConvVal A (flipM (flipM B)) (i + (B.rows - 1) / 2) (j + (B.cols - 1) / 2)
      = fullConvVal A B (i + (B.rows - 1) / 2) (j + (B.cols - 1) / 2)
    exact fullConvVal_flipflip A B _ _
  · show fullConvVal A (flipM (flipM B)) (i + (B.rows - 1)) (j + (B.cols - 1))
      = fullConvVal A B (i + (B.rows - 1)) (j + (B.cols - 1))
    exact fullConvVal_flipflip A B _ _

theorem tail_guard_getD (x : Arr4) (s : List ℕ) (h : x.shape.tail = s.tail) :
    s.getD 1 0 = x.d1 ∧ s.getD 2 0 = x.d2 ∧ s.getD 3 0 = x.d3 := by
  cases s with
  | nil => simp [Arr4.shape] at h
  | cons a t =>
      simp only [Arr4.shape, List.tail] at h
      rw [← h]
      simp [List.getD]

/-! ## Claim theorems -/

set_option maxHeartbeats 2000000 in
/-- C1, counterexample.  On a delta image and an asymmetric 3×3 filter, the
code's forward pass (scipy `convolve2d`, a true convolution) produces 6 at
output position (0, 1), while the spec's claimed "same"-mode CORRELATION of
the inputs with the weights produces 4 there, so the claim is false of the
code. -/
theorem C1_counterexample :
    resVal4 (convForward c1Layer c1Input false).1 0 0 0 1 = 6 ∧
    (convOutputsSpecCorr c1Layer c1Input).val 0 0 0 1 = 4 ∧
    resVal4 (convForward c1Layer c1Input false).1 0 0 0 1 ≠
      (convOutputsSpecCorr c1Layer c1Input).val 0 0 0 1 := by
  have h1 : resVal4 (convForward c1Layer c1Input false).1 0 0 0 1 = 6 := by
    norm_num [resVal4, convForward, convOutputs, convolve2d, fullConvVal, Mat.getv,
      Arr4.slice, Arr4.shape, mkArr4, c1Layer, c1Input, Finset.sum_range_succ, List.getD]
  have h2 : (convOutputsSpecCorr c1Layer c1Input).val 0 0 0 1 = 4 := by
    norm_num [convOutputsSpecCorr, correlate2d, convolve2d, fullConvVal, Mat.getv, flipM,
      Arr4.slice, mkArr4, c1Layer, c1Input, Finset.sum_range_succ, List.getD]
  refine ⟨h1, h2, ?_⟩
  rw [h1, h2]
  norm_num

/-- C1, amended.  For every batch passing the shape guard, `ConvLayer.forward`
returns, entrywise, the accumulation over input channels of the "same"-mode
2-D CONVOLUTION of `inputs[n][c]` with `weights[k][c]` — equivalently, the
"same"-mode correlation with the spatially FLIPPED filter — and the
per-sample output shape is `(n_filters, height, width)`, spatial size
unchanged. -/
theorem C1_theorem (st : ConvLayer) (x : Arr4) (kp : Bool)
    (h : x.shape.tail = st.input_shape.tail) :
    ∃ y, (convForward st x kp).1 = .ok y ∧
      y.shape = [x.d0, st.n_filters, x.d2, x.d3] ∧
      y.shape.tail = st.output_shape.tail ∧
      ∀ n k i j, y.val n k i j =
        ∑ c ∈ Finset.range x.d1,
          (correlate2d (x.slice n c) (flipM (st.weights.slice k c)) .same).val i j := by
  refine ⟨convOutputs st x, by simp [convForward, h], ?_, ?_, ?_⟩
  · obtain ⟨_, h2, h3⟩ := tail_guard_getD x st.input_shape h
    show [x.d0, st.n_filters, st.input_shape.getD 2 0, st.input_shape.getD 3 0]
      = [x.d0, st.n_filters, x.d2, x.d3]
    rw [h2, h3]
  · simp [convOutputs, Arr4.shape, ConvLayer.output_shape]
  · intro n k i j
    show (∑ c ∈ Finset.range x.d1,
        (convolve2d (x.slice n c) (st.weights.slice k c) .same).val i j) = _
    exact Finset.sum_congr rfl fun c _ => (correlate2d_flipM_val _ _ _ i j).symm

/-- C1, witness for the amended theorem at `c1Layer` on `c1Input`. -/
theorem C1_theorem_witness :
    ∃ y, (convForward c1Layer c1Input false).1 = .ok y ∧
      y.shape = [c1Input.d0, c1Layer.n_filters, c1Input.d2, c1Input.d3] ∧
      y.shape.tail = c1Layer.output_shape.tail ∧
      ∀ n k i j, y.val n k i j =
        ∑ c ∈ Finset.range c1Input.d1,
          (correlate2d (c1Input.slice n c) (flipM (c1Layer.weights.slice k c)) .same).val i j :=
  C1_theorem c1Layer c1Input false (by decide)

set_option maxHeartbeats 2000000 in
/-- C2, counterexample.  After a forward pass cached `c2Input` (a delta image)
and a backward pass ran on `c2G` (a delta output gradient), the stored weight
gradient's entry (0, 0, 0, 0) is 1 — the code computes scipy `convolve2d(inputs,
gradient, 'valid')`, a convolution — while the spec's claimed "valid"-mode
CORRELATION of the cached inputs with the gradient gives 0 there, so the
claim is false of the code. -/
theorem C2_counterexample :
    gradVal c2After.gradient 0 0 0 0 = 1 ∧
    (convWGradSpecCorr c2Layer c2Input c2G).val 0 0 0 0 = 0 ∧
    gradVal c2After.gradient 0 0 0 0 ≠
      (convWGradSpecCorr c2Layer c2Input c2G).val 0 0 0 0 := by
  have h1 : gradVal c2After.gradient 0 0 0 0 = 1 := by
    norm_num [gradVal, c2After, convBackward, convForward, actsNeqEmpty, convWGrad,
      bcastVal, convolve2d, fullConvVal, Mat.getv, Arr4.slice, Arr4.shape, mkArr4,
      c2Layer, c2Input, c2G, Finset.sum_range_succ, List.getD]
  have h2 : (convWGradSpecCorr c2Layer c2Input c2G).val 0 0 0 0 = 0 := by
    norm_num [convWGradSpecCorr, correlate2d, convolve2d, fullConvVal, Mat.getv, flipM,
      Arr4.slice, mkArr4, c2Layer, c2Input, c2G, Finset.sum_range_succ, List.getD]
  refine ⟨h1, h2, ?_⟩
  rw [h1, h2]
  norm_num

/-- C2, amended.  When an output gradient with the cached inputs' spatial
extent is back-propagated, the stored weight gradient holds, at EVERY position
of a filter's `field × field` slice, the same broadcast scalar: the sum over
samples of the "valid"-mode 2-D CONVOLUTION (scipy `convolve2d`, not
correlation) of `inputs[n][c]` with `gradient[n][k]`, whose valid output is
1×1 here; and the returned input gradient is, entrywise, the sum over filters
of the "same"-mode convolution of `gradient[n][k]` with the spatially FLIPPED
`weights[k][c]` (the code's `correlate2d(gradient, weights, 'same')`). -/
theorem C2_theorem (st : ConvLayer) (g ins : Arr4) (kp : Bool)
    (h1 : st.inputs = some ins) (h2 : g.d2 = ins.d2) (h3 : g.d3 = ins.d3) :
    ∃ gr, convBackward st g kp =
        (.ok gr, { st with gradient := some (convWGrad st ins g) }) ∧
      (∀ k c i j, k < st.n_filters → c < ins.d1 →
        (convWGrad st ins g).val k c i j =
          ∑ n ∈ Finset.range ins.d0,
            (convolve2d (ins.slice n c) (g.slice n k) .valid).val 0 0) ∧
      (∀ n c i j, n < ins.d0 → c < ins.d1 →
        gr.val n c i j =
          ∑ k ∈ Finset.range st.n_filters,
            (convolve2d (g.slice n k) (flipM (st.weights.slice k c)) .same).val i j) := by
  refine ⟨convInGrad st ins g, ?_, ?_, ?_⟩
  · simp [convBackward, actsNeqEmpty_eq_true, h1]
  · intro k c i j hk hc
    show (if k < st.n_filters ∧ c < ins.d1 then
        ∑ n ∈ Finset.range ins.d0,
          bcastVal (convolve2d (ins.slice n c) (g.slice n k) .valid) i j
      else 0) = _
    rw [if_pos ⟨hk, hc⟩]
    refine Finset.sum_congr rfl fun n _ => ?_
    have hr : (convolve2d (ins.slice n c) (g.slice n k) .valid).rows = 1 := by
      show ins.d2 - g.d2 + 1 = 1
      omega
    have hcc : (convolve2d (ins.slice n c) (g.slice n k) .valid).cols = 1 := by
      show ins.d3 - g.d3 + 1 = 1
      omega
    rw [bcastVal, if_pos hr, if_pos hcc]
  · intro n c i j hn hc
    show (if n < ins.d0 ∧ c < ins.d1 then
        ∑ k ∈ Finset.range st.n_filters,
          (correlate2d (g.slice n k) (st.weights.slice k c) .same).val i j
      else 0) = _
    rw [if_pos ⟨hn, hc⟩]
    rfl

/-- C2, witness for the amended theorem on the concrete `c2` scenario. -/
theorem C2_theorem_witness :
    ∃ gr, convBackward c2St1 c2G true =
        (.ok gr, { c2St1 with gradient := some (convWGrad c2St1 c2Input c2G) }) ∧
      (∀ k c i j, k < c2St1.n_filters → c < c2Input.d1 →
        (convWGrad c2St1 c2Input c2G).val k c i j =
          ∑ n ∈ Finset.range c2Input.d0,
            (convolve2d (c2Input.slice n c) (c2G.slice n k) .valid).val 0 0) ∧
      (∀ n c i j, n < c2Input.d0 → c < c2Input.d1 →
        gr.val n c i j =
          ∑ k ∈ Finset.range c2St1.n_filters,
            (convolve2d (c2G.slice n k) (flipM (c2St1.weights.slice k c)) .same).val i j) :=
  C2_theorem c2St1 c2G c2Input true rfl rfl rfl

set_option maxHeartbeats 2000000 in
/-- C3, counterexample.  A two-sample batch (`c3Input.d0 = 2`) is pushed
through a `ConvLayer` with one 1×1 filter; the stored weight gradient is 2.
One `update_parameters(learn_rate=0.1, regularization_strength=0.0)` changes
the weight from 0 to −1/5 = −0.1·2/1, because the code divides by
`len(self.gradient)` — the weight gradient's leading axis, `n_filters = 1` —
whereas the claim's `param·(1−r) − lr·(gradient/batch_size)` with the batch
size 2 would give −1/10.  So the divisor is not the number of samples and the
change is not `−0.1 × mean(gradient)` over the batch. -/
theorem C3_counterexample :
    c3Input.d0 = 2 ∧
    gradVal c3After.gradient 0 0 0 0 = 2 ∧
    updWeightsVal (convUpdate c3After (1/10) 0) 0 0 0 0 = -(1/5) ∧
    updWeightsVal (convUpdate c3After (1/10) 0) 0 0 0 0 ≠
      c3Layer.weights.val 0 0 0 0 * (1 - 0) -
        gradVal c3After.gradient 0 0 0 0 * (1/10) / (c3Input.d0 : ℚ) := by
  have hg : gradVal c3After.gradient 0 0 0 0 = 2 := by
    norm_num [gradVal, c3After, convBackward, convForward, actsNeqEmpty, convWGrad,
      bcastVal, convolve2d, fullConvVal, Mat.getv, Arr4.slice, Arr4.shape, mkArr4,
      c3Layer, c3Input, c3G, Finset.sum_range_succ, List.getD]
  have hw : updWeightsVal (convUpdate c3After (1/10) 0) 0 0 0 0 = -(1/5) := by
    norm_num [updWeightsVal, convUpdate, gradVal, c3After, convBackward, convForward,
      actsNeqEmpty, convWGrad, bcastVal, convolve2d, fullConvVal, Mat.getv, Arr4.slice,
      Arr4.shape, mkArr4, c3Layer, c3Input, c3G, Finset.sum_range_succ, List.getD]
  refine ⟨rfl, hg, hw, ?_⟩
  rw [hw, hg]
  show -(1/5 : ℚ) ≠ (mkArr4 [[[[0]]]]).val 0 0 0 0 * (1 - 0) - 2 * (1/10) / ((2 : ℕ) : ℚ)
  norm_num [mkArr4, List.getD]

/-- C3, amended.  For both `ConvLayer` and `FCLayer`, `update_parameters`
replaces the parameters by `param·(1 − regularization_strength) −
learn_rate·(gradient / len(gradient))`, where `len(gradient)` is the STORED
WEIGHT GRADIENT's leading-axis length — `n_filters` for `ConvLayer` (the
stored gradient has the weight bank's shape) and the flattened input size for
`FCLayer` (the stored gradient has as many rows as the cached flattened
inputs have columns) — not the number of samples in the batch. -/
theorem C3_theorem :
    (∀ (st : ConvLayer) (g : Arr4) (lr r : ℚ), st.gradient = some g →
      ∃ st2, convUpdate st lr r = .ok st2 ∧
        ∀ k c i j, st2.weights.val k c i j =
          st.weights.val k c i j * (1 - r) - g.val k c i j * lr / (g.d0 : ℚ)) ∧
    (∀ (st : ConvLayer) (g ins : Arr4) (kp : Bool), st.inputs = some ins →
      ∃ gr, (convBackward st g kp).2.gradient = some gr ∧ gr.d0 = st.weights.d0) ∧
    (∀ (st : FCLayer) (g : Mat) (lr r : ℚ), st.gradient = some g →
      ∃ st2, fcUpdate st lr r = .ok st2 ∧
        ∀ i j, st2.weights.val i j =
          st.weights.val i j * (1 - r) - g.val i j * lr / (g.rows : ℚ)) ∧
    (∀ (st : FCLayer) (g ins : Mat), st.inputs = some ins →
      ∃ gr, (fcBackward st g true).2.gradient = some gr ∧ gr.rows = ins.cols) := by
  refine ⟨?_, ?_, ?_, ?_⟩
  · intro st g lr r h
    refine ⟨{ st with weights :=
      ⟨st.weights.d0, st.weights.d1, st.weights.d2, st.weights.d3,
        fun k c i j => st.weights.val k c i j * (1 - r) - g.val k c i j * lr / (g.d0 : ℚ)⟩ },
      ?_, fun k c i j => rfl⟩
    simp [convUpdate, h]
  · intro st g ins kp h
    refine ⟨convWGrad st ins g, ?_, rfl⟩
    simp [convBackward, actsNeqEmpty_eq_true, h]
  · intro st g lr r h
    refine ⟨{ st with weights :=
      ⟨st.weights.rows, st.weights.cols,
        fun i j => st.weights.val i j * (1 - r) - g.val i j * lr / (g.rows : ℚ)⟩ },
      ?_, fun i j => rfl⟩
    simp [fcUpdate, h]
  · intro st g ins h
    refine ⟨matMul ins.transpose g, ?_, rfl⟩
    simp [fcBackward, actsNeqEmpty_eq_true, h]

/-- C3, witness: the amended update rule applied to concrete conv and FC
states with stored gradients and cached inputs. -/
theorem C3_theorem_witness :
    (∃ st2, convUpdate c3ConvSt (1/10) 0 = .ok st2 ∧
      ∀ k c i j, st2.weights.val k c i j =
        c3ConvSt.weights.val k c i j * (1 - 0) -
          (mkArr4 [[[[2]]]]).val k c i j * (1/10) / (((mkArr4 [[[[2]]]]).d0 : ℕ) : ℚ)) ∧
    (∃ gr, (convBackward c3ConvStIns c3G false).2.gradient = some gr ∧
      gr.d0 = c3ConvStIns.weights.d0) ∧
    (∃ st2, fcUpdate c3FcSt (1/10) 0 = .ok st2 ∧
      ∀ i j, st2.weights.val i j =
        c3FcSt.weights.val i j * (1 - 0) -
          (mkMat [[2], [4]]).val i j * (1/10) / (((mkMat [[2], [4]]).rows : ℕ) : ℚ)) ∧
    (∃ gr, (fcBackward c3FcSt (mkMat [[3]]) true).2.gradient = some gr ∧
      gr.rows = (mkMat [[1, 2]]).cols) :=
  ⟨C3_theorem.1 c3ConvSt (mkArr4 [[[[2]]]]) (1/10) 0 rfl,
   C3_theorem.2.1 c3ConvStIns c3G c3Input false rfl,
   C3_theorem.2.2.1 c3FcSt (mkMat [[2], [4]]) (1/10) 0 rfl,
   C3_theorem.2.2.2 c3FcSt (mkMat [[3]]) (mkMat [[1, 2]]) rfl⟩

/-- C4: code bug.  `ConvLayer.__init__` scales each filter's draws by
`np.sqrt(2.0 / np.sum(self.weights[i].shape))`, and `np.sum` of the shape
tuple `(input_channels, field, field)` is the SUM `input_channels + field +
field`, not the product `input_channels · field · field` that He
initialisation (and the claim) requires as fan-in.  At `input_channels = 3`,
`field = 3` the code's squared scale is 2/9 while He's is 2/27; squares of
nonnegative reals determine them, so the scales differ.  `FCLayer`'s divisor
does equal the product of the non-batch input axes, as claimed. -/
theorem C4_theorem :
    convScaleDivisor 3 3 = 9 ∧
    heFanInConv 3 3 = 27 ∧
    convInitScaleSq 3 3 = 2 / 9 ∧
    heScaleSq (heFanInConv 3 3) = 2 / 27 ∧
    convInitScaleSq 3 3 ≠ heScaleSq (heFanInConv 3 3) ∧
    ∀ ishape : List ℕ, fcInitScaleSq ishape = heScaleSq ishape.tail.prod := by
  refine ⟨rfl, rfl, by norm_num [convInitScaleSq, convScaleDivisor],
    by norm_num [heScaleSq, heFanInConv],
    by norm_num [convInitScaleSq, convScaleDivisor, heScaleSq, heFanInConv],
    fun ishape => rfl⟩

/-- C5: code bug.  The guard in `Layer.backward` is `assert self.acts != []`,
but `self.acts` is initialised to `None` and `None != []` is `True` in
Python 2, so the guard passes in every state and NO `PreconditionError` is
ever raised for a backward-before-forward call.  Concretely: on a fresh
`ReLuLayer`, `backward` returns normally with an all-zero gradient (Python 2
evaluates `None > 0` to `False`, silently zeroing the incoming gradient 5);
on a fresh `ConvLayer`, `backward` dies with an `AttributeError` on the
missing `self.inputs` — in neither case the claimed `PreconditionError`. -/
theorem C5_theorem :
    actsNeqEmpty (none : Option Arr4) = true ∧
    (reluBackward c5Relu c5G true).1 ≠ .error .preconditionError ∧
    (∃ gr, (reluBackward c5Relu c5G true).1 = .ok gr ∧ gr.val 0 0 0 0 = 0) ∧
    c5G.val 0 0 0 0 = 5 ∧
    (convBackward c5Conv c5G true).1 = .error .attributeError ∧
    (convBackward c5Conv c5G true).1 ≠ .error .preconditionError := by
  refine ⟨rfl, ?_, ⟨_, rfl, ?_⟩, ?_, rfl, ?_⟩
  · simp [reluBackward, c5Relu, reluInit, actsNeqEmpty]
  · norm_num [c5G, mkArr4, reluMaskVal, c5Relu, reluInit, List.getD]
  · norm_num [c5G, mkArr4, List.getD]
  · simp [convBackward, c5Conv, actsNeqEmpty]

/-- C6, counterexample.  Constructing a `ConvLayer` whose field (5) exceeds
the declared spatial extent (2×2) succeeds — the result is `.ok`, not a
`ConfigError` — because the constructor validates nothing. -/
theorem C6_counterexample :
    (convInit [1, 1, 2, 2] 1 5 (fun _ _ _ _ => 1)).isOk = true ∧
    convInit [1, 1, 2, 2] 1 5 (fun _ _ _ _ => 1) ≠ .error .configError := by
  exact ⟨rfl, by simp [convInit]⟩

/-- C6, amended.  `ConvLayer` construction performs no validation at all: for
EVERY input shape, filter count and field — including a field larger than the
input spatial size — it returns the constructed layer and raises no
`ConfigError` (nor any other error). -/
theorem C6_theorem (ishape : List ℕ) (K f : ℕ) (raw : ℕ → ℕ → ℕ → ℕ → ℚ) :
    convInit ishape K f raw =
      .ok { input_shape := ishape, n_filters := K, field := f,
            weights := ⟨K, ishape.getD 1 0, f, f, raw⟩ } ∧
    (convInit ishape K f raw).isOk = true ∧
    convInit ishape K f raw ≠ .error .configError :=
  ⟨rfl, rfl, by simp [convInit]⟩

/-- C7, confirmed.  For every layer variant, `forward` fails with the
shape-mismatch assertion exactly when the batch's per-sample shape
(`inputs.shape[1:]`) differs from the layer's declared `input_shape[1:]`;
and on such a failure the layer's state is untouched (the assertion precedes
`_forward`, which performs every cache write). -/
theorem C7_theorem :
    (∀ (st : ConvLayer) (x : Arr4) (kp : Bool),
      ((convForward st x kp).1 = .error .shapeMismatch ↔
        x.shape.tail ≠ st.input_shape.tail) ∧
      (x.shape.tail ≠ st.input_shape.tail → (convForward st x kp).2 = st)) ∧
    (∀ (st : ReLuLayer) (x : Arr4) (kp : Bool),
      ((reluForward st x kp).1 = .error .shapeMismatch ↔
        x.shape.tail ≠ st.input_shape.tail) ∧
      (x.shape.tail ≠ st.input_shape.tail → (reluForward st x kp).2 = st)) ∧
    (∀ (st : BiasLayer) (x : Arr4) (kp : Bool),
      ((biasForward st x kp).1 = .error .shapeMismatch ↔
        x.shape.tail ≠ st.input_shape.tail) ∧
      (x.shape.tail ≠ st.input_shape.tail → (biasForward st x kp).2 = st)) ∧
    (∀ (st : FCLayer) (x : Arr4) (kp : Bool),
      ((fcForward st x kp).1 = .error .shapeMismatch ↔
        x.shape.tail ≠ st.input_shape.tail) ∧
      (x.shape.tail ≠ st.input_shape.tail → (fcForward st x kp).2 = st)) := by
  refine ⟨?_, ?_, ?_, ?_⟩ <;> intro st x kp <;>
    by_cases h : x.shape.tail = st.input_shape.tail
  · exact ⟨by simp [convForward, h], fun hn => absurd h hn⟩
  · exact ⟨by simp [convForward, h], fun _ => by simp [convForward, h]⟩
  · exact ⟨by simp [reluForward, h], fun hn => absurd h hn⟩
  · exact ⟨by simp [reluForward, h], fun _ => by simp [reluForward, h]⟩
  · exact ⟨by simp [biasForward, h], fun hn => absurd h hn⟩
  · exact ⟨by simp [biasForward, h], fun _ => by simp [biasForward, h]⟩
  · exact ⟨by simp [fcForward, h], fun hn => absurd h hn⟩
  · exact ⟨by simp [fcForward, h], fun _ => by simp [fcForward, h]⟩

/-- C7, witness: a batch of 3×3 images fed to layers declared for 2×2 inputs
raises the shape-mismatch error and leaves the conv layer's state unchanged. -/
theorem C7_theorem_witness :
    (convForward c7Layer c7Bad false).1 = .error .shapeMismatch ∧
    (convForward c7Layer c7Bad false).2 = c7Layer ∧
    (reluForward c7Relu c7Bad false).1 = .error .shapeMismatch ∧
    (biasForward c7Bias c7Bad false).1 = .error .shapeMismatch ∧
    (fcForward c7Fc c7Bad false).1 = .error .shapeMismatch :=
  ⟨(C7_theorem.1 c7Layer c7Bad false).1.mpr (by decide),
   (C7_theorem.1 c7Layer c7Bad false).2 (by decide),
   (C7_theorem.2.1 c7Relu c7Bad false).1.mpr (by decide),
   (C7_theorem.2.2.1 c7Bias c7Bad false).1.mpr (by decide),
   (C7_theorem.2.2.2 c7Fc c7Bad false).1.mpr (by decide)⟩

/-- C8, confirmed.  Every layer's forward pass preserves the batch size and
produces the declared non-batch output axes: a `ConvLayer` maps a
`(B, C, H, W)` batch to `(B, n_filters, H, W)`; ReLU and bias keep the shape;
an `FCLayer` (whose constructor makes `weights.cols = n_neurons`) maps it to
`(B, n_neurons)`, matching its `output_shape`'s non-batch part `(n_neurons,)`. -/
theorem C8_theorem :
    (∀ (st : ConvLayer) (x : Arr4) (kp : Bool), x.shape.tail = st.input_shape.tail →
      ∃ y, (convForward st x kp).1 = .ok y ∧
        y.shape = x.d0 :: st.output_shape.tail ∧
        y.shape = [x.d0, st.n_filters, x.d2, x.d3]) ∧
    (∀ (st : ReLuLayer) (x : Arr4) (kp : Bool), x.shape.tail = st.input_shape.tail →
      ∃ y, (reluForward st x kp).1 = .ok y ∧ y.shape = x.d0 :: st.output_shape.tail) ∧
    (∀ (st : BiasLayer) (x : Arr4) (kp : Bool), x.shape.tail = st.input_shape.tail →
      ∃ y, (biasForward st x kp).1 = .ok y ∧ y.shape = x.d0 :: st.output_shape.tail) ∧
    (∀ (st : FCLayer) (x : Arr4) (kp : Bool), x.shape.tail = st.input_shape.tail →
      st.weights.cols = st.n_neurons →
      ∃ y, (fcForward st x kp).1 = .ok y ∧
        y.shape = [x.d0, st.n_neurons] ∧
        st.output_shape.tail = [PyShape.nat st.n_neurons]) := by
  refine ⟨?_, ?_, ?_, ?_⟩
  · intro st x kp h
    obtain ⟨_, h2, h3⟩ := tail_guard_getD x st.input_shape h
    refine ⟨convOutputs st x, by simp [convForward, h], rfl, ?_⟩
    show [x.d0, st.n_filters, st.input_shape.getD 2 0, st.input_shape.getD 3 0]
      = [x.d0, st.n_filters, x.d2, x.d3]
    rw [h2, h3]
  · intro st x kp h
    refine ⟨reluActs x, by simp [reluForward, h], ?_⟩
    show [x.d0, x.d1, x.d2, x.d3] = x.d0 :: st.input_shape.tail
    rw [← h]
    rfl
  · intro st x kp h
    refine ⟨⟨x.d0, x.d1, x.d2, x.d3, fun n c i j => x.val n c i j + st.biases.val c i j⟩,
      by simp [biasForward, h], ?_⟩
    show [x.d0, x.d1, x.d2, x.d3] = x.d0 :: st.input_shape.tail
    rw [← h]
    rfl
  · intro st x kp h hw
    refine ⟨matMul (flatten4 x) st.weights, by simp [fcForward, h], ?_, rfl⟩
    show [x.d0, st.weights.cols] = [x.d0, st.n_neurons]
    rw [hw]

/-- C8, witness: the four shape laws applied to a concrete one-sample 1×2×2
batch through the `c7` layers. -/
theorem C8_theorem_witness :
    (∃ y, (convForward c7Layer c8Good false).1 = .ok y ∧
      y.shape = c8Good.d0 :: c7Layer.output_shape.tail ∧
      y.shape = [c8Good.d0, c7Layer.n_filters, c8Good.d2, c8Good.d3]) ∧
    (∃ y, (reluForward c7Relu c8Good false).1 = .ok y ∧
      y.shape = c8Good.d0 :: c7Relu.output_shape.tail) ∧
    (∃ y, (biasForward c7Bias c8Good false).1 = .ok y ∧
      y.shape = c8Good.d0 :: c7Bias.output_shape.tail) ∧
    (∃ y, (fcForward c7Fc c8Good false).1 = .ok y ∧
      y.shape = [c8Good.d0, c7Fc.n_neurons] ∧
      c7Fc.output_shape.tail = [PyShape.nat c7Fc.n_neurons]) :=
  ⟨C8_theorem.1 c7Layer c8Good false (by decide),
   C8_theorem.2.1 c7Relu c8Good false (by decide),
   C8_theorem.2.2.1 c7Bias c8Good false (by decide),
   C8_theorem.2.2.2 c7Fc c8Good false (by decide) rfl⟩

/-- C9, confirmed.  After a forward pass cached the activations
(`keepacts=True`), ReLU's backward returns the incoming gradient multiplied
entrywise by the indicator `(cached_activation > 0)`; every position whose
forward INPUT was ≤ 0 — including exactly 0, where the activation
`max(0, x) = 0` is not `> 0` — receives zero gradient. -/
theorem C9_theorem (st : ReLuLayer) (x g : Arr4) (kpb : Bool)
    (h : x.shape.tail = st.input_shape.tail) :
    ∃ gr, (reluBackward (reluForward st x true).2 g kpb).1 = .ok gr ∧
      (∀ n c i j, gr.val n c i j =
        g.val n c i j * (if 0 < (reluActs x).val n c i j then 1 else 0)) ∧
      (∀ n c i j, x.val n c i j ≤ 0 → gr.val n c i j = 0) := by
  have hst : (reluForward st x true).2 = { st with acts := some (reluActs x) } := by
    simp [reluForward, h]
  rw [hst]
  refine ⟨⟨g.d0, g.d1, g.d2, g.d3,
    fun n c i j => g.val n c i j * reluMaskVal (some (reluActs x)) n c i j⟩,
    by simp [reluBackward, actsNeqEmpty], fun n c i j => rfl, ?_⟩
  intro n c i j hx
  show g.val n c i j * reluMaskVal (some (reluActs x)) n c i j = 0
  have hm : (reluActs x).val n c i j = 0 := by
    show max 0 (x.val n c i j) = 0
    exact max_eq_left hx
  show g.val n c i j * (if 0 < (reluActs x).val n c i j then 1 else 0) = 0
  rw [hm, if_neg (lt_irrefl 0), mul_zero]

/-- C9, witness: the masked-gradient law on an input containing −1, 0 and
positive entries; in particular the position holding 0 gets zero gradient. -/
theorem C9_theorem_witness :
    ∃ gr, (reluBackward (reluForward c9Relu c9Input true).2 c9G true).1 = .ok gr ∧
      (∀ n c i j, gr.val n c i j =
        c9G.val n c i j * (if 0 < (reluActs c9Input).val n c i j then 1 else 0)) ∧
      (∀ n c i j, c9Input.val n c i j ≤ 0 → gr.val n c i j = 0) :=
  C9_theorem c9Relu c9Input c9G true (by decide)

/-- C10, confirmed.  `FCLayer.__init__` sets `output_shape` to the pair
`(input_shape, n_neurons)` whose first element is the ENTIRE `input_shape`
tuple (not a batch placeholder and not an int), so `output_shape` is not a
flat tuple of ints, while its non-batch part `output_shape[1:]` is
`(n_neurons,)`. -/
theorem C10_theorem (ishape : List ℕ) (M : ℕ) (raw : ℕ → ℕ → ℚ) :
    ∃ st, fcInit ishape M raw = .ok st ∧
      st.output_shape = [PyShape.tup ishape, PyShape.nat M] ∧
      (∀ k : ℕ, st.output_shape.getD 0 (PyShape.nat 0) ≠ PyShape.nat k) ∧
      st.output_shape.tail = [PyShape.nat M] := by
  refine ⟨_, rfl, rfl, ?_, rfl⟩
  intro k h
  exact PyShape.noConfusion h

end NeuralNet
